import Mathlib

/-!
Verification of go-web3 unit conversion, hex utilities, RPC client and
transaction signing: a shallow embedding of the `donghquinn/go-web3` Go library.

Numeric model: Go `math/big` integers are embedded as `ℤ`/`ℕ`;
`math/big.Float` values (binary floating point with an explicit mantissa
precision, round-to-nearest-ties-to-even) are embedded as exact fractions
(type `Frac` below) together with an explicit rounding function `rndP`
that rounds a fraction to a given mantissa precision, mirroring the
documented semantics of `big.Float` (`SetString` rounds to precision 64
when the receiver has precision 0; `SetInt` is exact with precision
`max 64 (bitlength)`; `Mul` and `Quo` round the exact result to the
larger of the operands' precisions; `Int` truncates toward zero; the
default rounding mode is `ToNearestEven`).

`Frac` is an unnormalized fraction `num / den`; every constructor and
operation below keeps `den` positive, so comparisons are by
cross-multiplication.  It is used instead of Mathlib's `ℚ` so that every
operation evaluates by kernel reduction on concrete inputs.
-/

set_option maxRecDepth 100000

namespace GoWeb3

/-- An unnormalized fraction `num / den`.  All operations below preserve
`0 < den`. -/
structure Frac where
  num : ℤ
  den : ℤ
  deriving DecidableEq

/-- The fraction `n / 1`. -/
def Frac.ofInt (n : ℤ) : Frac := ⟨n, 1⟩

/-- Value equality of fractions (cross-multiplication; both `den`s are
positive in all uses). -/
def Frac.veq (a b : Frac) : Prop := a.num * b.den = b.num * a.den

instance (a b : Frac) : Decidable (a.veq b) := by
  unfold Frac.veq; infer_instance

/-- Strict value order on fractions (both `den`s positive). -/
def Frac.vlt (a b : Frac) : Prop := a.num * b.den < b.num * a.den

instance (a b : Frac) : Decidable (a.vlt b) := by
  unfold Frac.vlt; infer_instance

/-- Fraction product. -/
def Frac.mul (a b : Frac) : Frac := ⟨a.num * b.num, a.den * b.den⟩

/-- Fraction sum. -/
def Frac.add (a b : Frac) : Frac := ⟨a.num * b.den + b.num * a.den, a.den * b.den⟩

/-- Quotient of a fraction by a fraction with positive numerator (the only
kind of divisor that occurs in the embedded code: powers of ten and of
two). -/
def Frac.divPos (a b : Frac) : Frac := ⟨a.num * b.den, a.den * b.num⟩

/-- Absolute value. -/
def Frac.fabs (a : Frac) : Frac := ⟨if a.num < 0 then -a.num else a.num, a.den⟩

/-- Negation. -/
def Frac.fneg (a : Frac) : Frac := ⟨-a.num, a.den⟩

/-- Multiply the fraction by `b ^ k` for `k : ℤ` (`b` a positive base),
keeping the denominator positive. -/
def Frac.mulPow (a : Frac) (b : ℕ) (k : ℤ) : Frac :=
  if 0 ≤ k then ⟨a.num * ((b ^ k.toNat : ℕ) : ℤ), a.den⟩
  else ⟨a.num, a.den * ((b ^ (-k).toNat : ℕ) : ℤ)⟩

/-- Floor of a fraction with positive denominator, via Euclidean
division. -/
def Frac.floor (a : Frac) : ℤ := Int.ediv a.num a.den

/-- Truncation toward zero of a fraction to an integer: the semantics of
`big.Float.Int`. -/
def Frac.trunc (a : Frac) : ℤ :=
  if 0 ≤ a.num then Int.ediv a.num a.den else -(Int.ediv (-a.num) a.den)

/-- Number of base-`b` digits of `n` (0 for `n = 0`), fuel-based so that
it is structurally recursive and kernel-reducible.  `fuel` is consumed
once per produced digit, so `fuel = n` always suffices. -/
def digitsInBase (b : ℕ) : ℕ → ℕ → ℕ
  | 0, _ => 0
  | fuel+1, n => if n = 0 then 0 else digitsInBase b fuel (n / b) + 1

/-- Number of base-`b` digits of `n`. -/
def numDigits (b n : ℕ) : ℕ := digitsInBase b n n

/-- `b ^ k` as a fraction, for `k : ℤ`. -/
def basePow (b : ℕ) (k : ℤ) : Frac := (Frac.ofInt 1).mulPow b k

/-- `⌊log_b a⌋` for a positive fraction `a` (junk value otherwise),
computed from the digit counts of numerator and denominator. -/
def fracLogFloor (b : ℕ) (a : Frac) : ℤ :=
  let d : ℤ := (numDigits b a.num.natAbs : ℤ) - (numDigits b a.den.natAbs : ℤ)
  if a.vlt (basePow b d) then d - 1 else d

/-- Round the fraction `q` to a binary floating-point number with a
`p`-bit mantissa, rounding to nearest with ties to even: the rounding
performed by Go `math/big.Float` operations at precision `p` with the
default rounding mode `ToNearestEven`.  The mantissa `m` is obtained by
scaling `|q|` into `[2^(p-1), 2^p)` and rounding; the remainder is
compared with `1/2` by cross-multiplication. -/
def rndP (p : ℕ) (q : Frac) : Frac :=
  if q.num = 0 then Frac.ofInt 0 else
  let a := q.fabs
  let e := fracLogFloor 2 a
  let k : ℤ := (p : ℤ) - 1 - e
  let x := a.mulPow 2 k
  let f := x.floor
  let rem := x.num - f * x.den
  let m := if x.den < 2 * rem then f + 1
           else if 2 * rem = x.den then (if Int.emod f 2 = 0 then f else f + 1)
           else f
  let res := (Frac.ofInt m).mulPow 2 (-k)
  if q.num < 0 then res.fneg else res

/-- Rounding to the default 64-bit `big.Float` mantissa precision. -/
def rnd64 : Frac → Frac := rndP 64

/-- `true` iff `c` is an ASCII decimal digit. -/
def isDigitChar (c : Char) : Bool := 48 ≤ c.toNat && c.toNat ≤ 57

/-- Accumulate a digit list (most significant first) into a natural. -/
def digitsToNat (acc : ℕ) : List Char → ℕ
  | [] => acc
  | c :: cs => digitsToNat (10 * acc + (c.toNat - 48)) cs

/-- Value of a fractional digit string (the digits after the decimal
point), as a fraction in `[0, 1)`. -/
def fracDigitsVal : List Char → Frac
  | [] => Frac.ofInt 0
  | c :: cs =>
    let t := (Frac.ofInt ((c.toNat - 48 : ℕ) : ℤ)).add (fracDigitsVal cs)
    ⟨t.num, t.den * 10⟩

/-- Parse an unsigned decimal string: digits, optionally followed by a
single decimal point and further digits. -/
def parseUnsigned (l : List Char) : Option Frac :=
  let ip := l.takeWhile isDigitChar
  let rest := l.dropWhile isDigitChar
  if ip = [] then none else
  match rest with
  | [] => some (Frac.ofInt (digitsToNat 0 ip : ℕ))
  | '.' :: fs =>
      if fs.all isDigitChar then
        some ((Frac.ofInt (digitsToNat 0 ip : ℕ)).add (fracDigitsVal fs))
      else none
  | _ => none

/-- Parse a plain decimal string (optional sign, digits, optional single
decimal point, optional further digits) into its exact fractional
value. -/
def parseDec : List Char → Option Frac
  | '+' :: r => parseUnsigned r
  | '-' :: r => (parseUnsigned r).map Frac.fneg
  | r => parseUnsigned r

/-- `big.Float.SetString` on a fresh `big.Float` (precision 0): parses the
decimal string exactly and rounds the value to a 64-bit mantissa
(`If z's precision is 0, it is changed to 64`).  Modelled for the plain
decimal strings of the spec's lexical grammar (the inputs the claims
range over); `none` exactly when the parse fails. -/
def floatSetString (l : List Char) : Option Frac := (parseDec l).map rnd64

/-- ASCII lowering of one character, the ASCII case of Go
`strings.ToLower` (all unit names are ASCII). -/
def charToLower (c : Char) : Char :=
  if 65 ≤ c.toNat && c.toNat ≤ 90 then Char.ofNat (c.toNat + 32) else c

/-- ASCII lowering of a string. -/
def lowerStr (s : String) : String := ⟨s.data.map charToLower⟩

/-- The unit registry of `ToWei`/`FromWei`, as the common `switch` table
of `utils.go` and the string-unit variant: unit name (lowercase, as
written in the `case` arms) to decimal exponent of the multiplier.
Returns `none` for names not in the registry (the `default` arm). -/
def unitExp : String → Option ℕ
  | "wei" => some 0
  | "kwei" | "babbage" | "femtoether" => some 3
  | "mwei" | "lovelace" | "picoether" => some 6
  | "gwei" | "shannon" | "nanoether" | "nano" => some 9
  | "szabo" | "microether" | "micro" => some 12
  | "finney" | "milliether" | "milli" => some 15
  | "ether" | "eth" => some 18
  | "kether" | "grand" => some 21
  | "mether" => some 24
  | "gether" => some 27
  | "tether" => some 30
  | _ => none

/-- Mantissa precision of the `big.Float` product in `ToWei`:
`new(big.Float).Mul(val, new(big.Float).SetInt(multiplier))` rounds to
the larger of the operands' precisions; `val` has precision 64 and
`SetInt(10^e)` has precision `max 64 (bitlength (10^e))`. -/
def mulPrec (e : ℕ) : ℕ := max 64 (numDigits 2 (10 ^ e))

/-- Mantissa precision of the `big.Float` quotient in `FromWei`:
`Quo(SetInt(wei), SetInt(10^e))` rounds to the larger of the operands'
precisions, each `max 64 (bitlength)`. -/
def quoPrec (w : ℤ) (e : ℕ) : ℕ :=
  max (max 64 (numDigits 2 w.natAbs)) (max 64 (numDigits 2 (10 ^ e)))

/-- Common body of both `ToWei` variants (`utils.go` and the string-unit
file differ only in how the unit token is looked up, passed here as
`exp?`): parse `value` with `big.Float.SetString` (64-bit rounding),
multiply by the multiplier `10^e` as `big.Float` (rounded to `mulPrec e`
bits), truncate toward zero with `big.Float.Int`. -/
def toWeiCore (value unit : String) (exp? : Option ℕ) : Except String ℤ :=
  match floatSetString value.data with
  | none => .error ("invalid value: " ++ value)
  | some v =>
    match exp? with
    | none => .error ("unknown unit: " ++ unit)
    | some e => .ok (Frac.trunc (rndP (mulPrec e) (v.mul ⟨((10 ^ e : ℕ) : ℤ), 1⟩)))

/-- `ToWei(value string, unit string)` of the string-unit file: the unit
token is lowered with `strings.ToLower` before the `switch`. -/
def toWeiStr (value unit : String) : Except String ℤ :=
  toWeiCore value unit (unitExp (lowerStr unit))

/-- `ToWei(value string, unit EtherUnit)` of `utils.go`: the `switch`
compares the `EtherUnit` (a string type) against the lowercase constants
`Wei = "wei"`, ..., with no case folding. -/
def toWeiEU (value : String) (unit : String) : Except String ℤ :=
  toWeiCore value unit (unitExp unit)

/-- Round the fraction `q` to 10 significant decimal digits (nearest,
ties to even): the numeric value of `big.Float.String()`, which formats
like `Text('g', 10)`, i.e. decimal output with 10 significant digits. -/
def round10sig (q : Frac) : Frac :=
  if q.num = 0 then Frac.ofInt 0 else
  let a := q.fabs
  let e := fracLogFloor 10 a
  let k : ℤ := 9 - e
  let x := a.mulPow 10 k
  let f := x.floor
  let rem := x.num - f * x.den
  let m := if x.den < 2 * rem then f + 1
           else if 2 * rem = x.den then (if Int.emod f 2 = 0 then f else f + 1)
           else f
  let res := (Frac.ofInt m).mulPow 10 (-k)
  if q.num < 0 then res.fneg else res

/-- Common body of both `FromWei` variants, at the level of the numeric
value of the returned decimal string.  A `nil` wei amount (here `none`)
returns `"0"` before the unit lookup; otherwise the unit is looked up
(`exp?`), the quotient `wei / 10^e` is computed as a `big.Float` rounded
to `quoPrec w e` bits, and the result is the value printed by
`result.String()` (10 significant decimal digits). -/
def fromWeiCore (wei : Option ℤ) (unit : String) (exp? : Option ℕ) :
    Except String Frac :=
  match wei with
  | none => .ok (Frac.ofInt 0)
  | some w =>
    match exp? with
    | none => .error ("unknown unit: " ++ unit)
    | some e =>
      .ok (round10sig (rndP (quoPrec w e) (Frac.divPos (Frac.ofInt w) ⟨((10 ^ e : ℕ) : ℤ), 1⟩)))

/-- `FromWei(wei *big.Int, unit string)` of the string-unit file (value
of the returned string). -/
def fromWeiStr (wei : Option ℤ) (unit : String) : Except String Frac :=
  fromWeiCore wei unit (unitExp (lowerStr unit))

/-- `FromWei(wei *big.Int, unit EtherUnit)` of `utils.go` (value of the
returned string); the unit is matched exactly against the lowercase
constants. -/
def fromWeiEU (wei : Option ℤ) (unit : String) : Except String Frac :=
  fromWeiCore wei unit (unitExp unit)

/-- Modelled from the spec: `to_smallest_unit` computed with exact
rational arithmetic, i.e. `truncate-toward-zero (D × 10^e)` with no
floating-point rounding, as the spec's Decimal Conversion Engine section
prescribes (`using exact rational/decimal arithmetic (not binary floating
point)`, with truncation toward zero).  Used to compare the code's
behavior against the spec's. -/
def toWeiExactSpec (value unit : String) : Except String ℤ :=
  match parseDec value.data with
  | none => .error ("invalid value: " ++ value)
  | some v =>
    match unitExp (lowerStr unit) with
    | none => .error ("unknown unit: " ++ unit)
    | some e => .ok (Frac.trunc (v.mul ⟨((10 ^ e : ℕ) : ℤ), 1⟩))

/-! Hex utilities (`utils.go`: `ToHex`, `FromHex`) -/

/-- The lowercase hex digit for `d < 16`, as printed by Go's `%x` verb
(`'0'` has code 48, `'a'` code 97). -/
def hexDigitChar (d : ℕ) : Char :=
  if d < 10 then Char.ofNat (48 + d) else Char.ofNat (87 + d)

/-- Hex digits of `n`, most significant first, no leading zeros (empty
for `n = 0`); fuel-based structural recursion, `fuel = n` suffices. -/
def toHexAux : ℕ → ℕ → List Char
  | 0, _ => []
  | fuel+1, n => if n = 0 then [] else toHexAux fuel (n / 16) ++ [hexDigitChar (n % 16)]

/-- The digit string printed by Go's `%x` for a non-negative integer
(`"0"` for zero). -/
def natToHexDigits (n : ℕ) : List Char := if n = 0 then ['0'] else toHexAux n n

/-- `ToHex` of `utils.go` on a non-negative integer (`int`, `int64`,
`uint64` and non-negative `*big.Int` all print as
`fmt.Sprintf("0x%x", v)`). -/
def toHex (n : ℕ) : String := ⟨'0' :: 'x' :: natToHexDigits n⟩

/-- Numeric value of a hex digit character, upper or lower case (the
digits accepted by `big.Int.SetString` with base 16), `none`
otherwise. -/
def hexDigitVal (c : Char) : Option ℕ :=
  if 48 ≤ c.toNat && c.toNat ≤ 57 then some (c.toNat - 48)
  else if 97 ≤ c.toNat && c.toNat ≤ 102 then some (c.toNat - 87)
  else if 65 ≤ c.toNat && c.toNat ≤ 70 then some (c.toNat - 55)
  else none

/-- Parse a base-16 digit string into `acc` (most significant digits
first); `none` on the first invalid digit. -/
def parseHexAux (acc : ℕ) : List Char → Option ℕ
  | [] => some acc
  | c :: cs =>
    match hexDigitVal c with
    | none => none
    | some d => parseHexAux (16 * acc + d) cs

/-- `big.Int.SetString(s, 16)`: `none` when the parse fails (empty string
or an invalid digit), `some n` on success. -/
def parseHex (l : List Char) : Option ℕ :=
  match l with
  | [] => none
  | _ => parseHexAux 0 l

/-- `FromHex` of `utils.go`.  Without the `0x` prefix it returns the
error `"hex string must start with 0x"`.  With the prefix it calls
`value.SetString(hex[2:], 16)` and returns `value, nil` WITHOUT checking
`SetString`'s ok result: the payload is `some n` when the digits parse
to `n` and `none` when `SetString` failed (the receiver's content is
then undefined per the `math/big` documentation) — in both cases no
error is returned. -/
def fromHex (s : String) : Except String (Option ℕ) :=
  match s.data with
  | '0' :: 'x' :: rest => .ok (parseHex rest)
  | _ => .error "hex string must start with 0x"

/-! JSON-RPC client (`client.go`: `Client`, `RPCError`, `Client.Call`) -/

/-- `RPCError` of the client file: `{code, message, data}`. -/
structure RPCError where
  code : ℤ
  message : String
  data : String
  deriving DecidableEq

/-- `RPCResponse`: the decoded response envelope (`result` is a raw JSON
message, kept as an uninterpreted string; `error` is optional). -/
structure RPCResponse where
  id : ℕ
  result : Option String
  error : Option RPCError
  deriving DecidableEq

/-- The response handling at the end of `Client.Call`: if the envelope
carries an error object, fail with it (the result field is never
consulted); otherwise return the result field. -/
def handleRPCResponse (r : RPCResponse) : Except RPCError (Option String) :=
  match r.error with
  | some e => .error e
  | none => .ok r.result

/-- The id assignment at the start of `Client.Call`:
`id := atomic.AddUint64(&c.idCounter, 1)` on the client's `uint64`
counter.  Input: the current counter; output: (new counter, envelope
id); the new value is used as the id. -/
def callStep (counter : ℕ) : ℕ × ℕ :=
  ((counter + 1) % 2 ^ 64, (counter + 1) % 2 ^ 64)

/-- `NewClient` initializes `idCounter` to 0. -/
def newClientCounter : ℕ := 0

/-- The envelope ids of `n` successive `Client.Call` invocations starting
from counter state `c`. -/
def idsFrom (c : ℕ) : ℕ → List ℕ
  | 0 => []
  | n+1 => (callStep c).2 :: idsFrom (callStep c).1 n

/-! Transaction signing (`transaction.go`: `TransactionParams`,
`SignTransaction`, `SignEIP1559Transaction`,
`CreateContractDeployment`) -/

/-- `TransactionParams` (legacy transactions).  `*big.Int` fields are
`Option ℤ` (`none` = `nil`), `[]byte` is `List ℕ`, `uint64` is `ℕ`. -/
structure TransactionParams where
  fromAddr : String
  toAddr : String
  value : Option ℤ
  gas : ℕ
  gasPrice : Option ℤ
  data : List ℕ
  nonce : ℕ
  chainID : Option ℤ
  deriving DecidableEq

/-- `EIP1559TransactionParams`. -/
structure EIP1559TransactionParams where
  fromAddr : String
  toAddr : String
  value : Option ℤ
  gas : ℕ
  maxFeePerGas : Option ℤ
  maxPriorityFeePerGas : Option ℤ
  data : List ℕ
  nonce : ℕ
  chainID : Option ℤ
  deriving DecidableEq

/-- `SignedTransaction{Hash, Raw}`. -/
structure SignedTransaction where
  hash : String
  raw : String
  deriving DecidableEq

/-- `NewTransactionParams()`: value 0, empty data,
`ChainID: ChainMainnet.BigInt()` (mainnet, chain id 1). -/
def newTransactionParams : TransactionParams :=
  { fromAddr := "", toAddr := "", value := some 0, gas := 0, gasPrice := none,
    data := [], nonce := 0, chainID := some 1 }

/-- `NewEIP1559TransactionParams()`: value 0, empty data, chain id 1. -/
def newEIP1559TransactionParams : EIP1559TransactionParams :=
  { fromAddr := "", toAddr := "", value := some 0, gas := 0, maxFeePerGas := none,
    maxPriorityFeePerGas := none, data := [], nonce := 0, chainID := some 1 }

/-- `SignTransaction(tx, privateKey)`.  The cryptographic part
(`types.SignTx` with the EIP-155 signer, RLP encoding, hashing — all
external go-ethereum library code) is abstracted as the `signer`
argument; the function validates `To`, `GasPrice` and `Gas` first and
only delegates to the signer when all three checks pass. -/
def signTransaction (signer : TransactionParams → Except String SignedTransaction)
    (tx : TransactionParams) : Except String SignedTransaction :=
  if tx.toAddr = "" then .error "transaction recipient (to) is required"
  else if tx.gasPrice = none then .error "gas price is required"
  else if tx.gas = 0 then .error "gas limit is required"
  else signer tx

/-- `SignEIP1559Transaction(tx, privateKey)`, with the external signing
abstracted as `signer`; validates `To`, `MaxFeePerGas`,
`MaxPriorityFeePerGas` and `Gas` before delegating. -/
def signEIP1559Transaction
    (signer : EIP1559TransactionParams → Except String SignedTransaction)
    (tx : EIP1559TransactionParams) : Except String SignedTransaction :=
  if tx.toAddr = "" then .error "transaction recipient (to) is required"
  else if tx.maxFeePerGas = none then .error "maxFeePerGas is required"
  else if tx.maxPriorityFeePerGas = none then .error "maxPriorityFeePerGas is required"
  else if tx.gas = 0 then .error "gas limit is required"
  else signer tx

/-- `CreateContractDeployment(bytecode, constructorData, privateKey,
params)`: sets `params.To = ""`, sets `params.Data` to the bytecode
(with the constructor data appended when non-nil), then calls
`SignTransaction`. -/
def createContractDeployment
    (signer : TransactionParams → Except String SignedTransaction)
    (bytecode : List ℕ) (constructorData : Option (List ℕ))
    (params : TransactionParams) : Except String SignedTransaction :=
  let p := { params with
              toAddr := "",
              data := match constructorData with
                      | some cd => bytecode ++ cd
                      | none => bytecode }
  signTransaction signer p

/-! Wallet transaction construction (`wallet.go`:
`Wallet.SendTransaction`, `Wallet.SendEIP1559Transaction`) -/

/-- `TransferOptions` of `wallet.go`. -/
structure TransferOptions where
  toAddr : String
  value : Option ℤ
  gasLimit : ℕ
  gasPrice : Option ℤ
  data : List ℕ
  deriving DecidableEq

/-- The `TransactionParams` that `Wallet.SendTransaction` builds and
passes to `SignTransaction`, as a function of the options and of the
values obtained over RPC (gas estimate, gas price, nonce).  A zero
`opts.GasLimit` is replaced by `gasEstimate + gasEstimate*10/100`
(`uint64` arithmetic, mod `2^64`); a `nil` `opts.GasPrice` is replaced
by the RPC gas price; the chain id is set with
`SetChainID(ChainMainnet)` (chain id 1), unconditionally. -/
def sendTransactionParams (opts : TransferOptions) (gasEstimate : ℕ)
    (rpcGasPrice : ℤ) (nonce : ℕ) : TransactionParams :=
  let gasLimit := if opts.gasLimit = 0
                  then (gasEstimate + gasEstimate * 10 % 2 ^ 64 / 100) % 2 ^ 64
                  else opts.gasLimit
  let gasPrice := match opts.gasPrice with
                  | none => some rpcGasPrice
                  | some g => some g
  { newTransactionParams with
      toAddr := opts.toAddr, value := opts.value, gas := gasLimit,
      gasPrice := gasPrice, data := opts.data, nonce := nonce,
      chainID := some 1 }

/-- The `EIP1559TransactionParams` that `Wallet.SendEIP1559Transaction`
builds and passes to `SignEIP1559Transaction`; the chain id is set with
`ChainMainnet.BigInt()` (chain id 1), unconditionally. -/
def sendEIP1559TransactionParams (opts : TransferOptions) (gasEstimate : ℕ)
    (nonce : ℕ) (maxFeePerGas maxPriorityFeePerGas : Option ℤ) :
    EIP1559TransactionParams :=
  let gasLimit := if opts.gasLimit = 0
                  then (gasEstimate + gasEstimate * 10 % 2 ^ 64 / 100) % 2 ^ 64
                  else opts.gasLimit
  { newEIP1559TransactionParams with
      toAddr := opts.toAddr, value := opts.value, gas := gasLimit,
      maxFeePerGas := maxFeePerGas,
      maxPriorityFeePerGas := maxPriorityFeePerGas,
      data := opts.data, nonce := nonce, chainID := some 1 }

/-- The payload of an `Except`, forgetting which error occurred. -/
def exceptValue? {ε α : Type} : Except ε α → Option α
  | .ok a => some a
  | .error _ => none

instance {ε α : Type} [DecidableEq ε] [DecidableEq α] : DecidableEq (Except ε α) := fun
  | .ok a, .ok b =>
    match decEq a b with
    | isTrue h => isTrue (by rw [h])
    | isFalse h => isFalse (by intro he; cases he; exact h rfl)
  | .ok _, .error _ => isFalse (by intro h; cases h)
  | .error _, .ok _ => isFalse (by intro h; cases h)
  | .error e, .error f =>
    match decEq e f with
    | isTrue h => isTrue (by rw [h])
    | isFalse h => isFalse (by intro he; cases he; exact h rfl)

/-! Theorems -/

/-- Claim C1: the claim states that `ToWei(D, unit)` always returns the
truncation toward zero of the exact rational value `D × 10^e`, with no
binary floating-point precision loss for 18+ significant digits.  The
code computes with 64-bit-mantissa `big.Float` instead: on
`D = "8.958624155593387863"` with unit `ether` both `ToWei` variants
return `8958624155593387862`, one wei below the exact truncation
`8958624155593387863` (the spec-mandated exact computation is
`toWeiExactSpec`). -/
theorem toWei_float64_precision_loss :
    toWeiEU "8.958624155593387863" "ether" = .ok 8958624155593387862 ∧
    toWeiStr "8.958624155593387863" "ether" = .ok 8958624155593387862 ∧
    toWeiExactSpec "8.958624155593387863" "ether" = .ok 8958624155593387863 :=
  ⟨by decide, by decide, by decide⟩

/-- Claim C2: the claim states the round trip
`FromWei(ToWei(D, U), U) = D` for every `D` exactly expressible in `U`'s
decimal places.  It fails: `FromWei` prints via `big.Float.String()`,
which keeps only 10 significant digits.  For
`D = "0.123456789012345678"` (18 decimal places, exactly expressible in
ether) `ToWei` returns `123456789012345678` wei, but `FromWei` of that
amount has value `1234567890/10^10 = 0.123456789`, not equal in value to
`D = 123456789012345678/10^18`. -/
theorem fromWei_toWei_roundtrip_precision_loss :
    toWeiEU "0.123456789012345678" "ether" = .ok 123456789012345678 ∧
    fromWeiEU (some 123456789012345678) "ether" = .ok ⟨1234567890, 10000000000⟩ ∧
    parseDec "0.123456789012345678".data
      = some ⟨123456789012345678, 1000000000000000000⟩ ∧
    ¬ Frac.veq ⟨1234567890, 10000000000⟩ ⟨123456789012345678, 1000000000000000000⟩ :=
  ⟨by decide, by decide, by decide, by decide⟩

/-- Claim C3: the claim states that `FromHex` errors on a missing `0x`
prefix (true) and also returns a parse failure when the digits after
`0x` are invalid.  The second half fails: `FromHex` ignores the ok
result of `value.SetString(hex[2:], 16)`, so `FromHex("0xzz")` returns
a value (with undefined content) and a `nil` error instead of a parse
failure. -/
theorem fromHex_ignores_invalid_digits :
    fromHex "0xzz" = .ok none ∧
    fromHex "12" = .error "hex string must start with 0x" :=
  ⟨by decide, by decide⟩

/-- Claim C4: `CreateContractDeployment` sets `params.To = ""` and then
calls `SignTransaction`, whose first validation step rejects an empty
recipient — so for every bytecode, constructor data, signer and
parameters it returns the missing-recipient error and never produces a
`SignedTransaction`. -/
theorem createContractDeployment_always_fails
    (signer : TransactionParams → Except String SignedTransaction)
    (bytecode : List ℕ) (constructorData : Option (List ℕ))
    (params : TransactionParams) :
    createContractDeployment signer bytecode constructorData params
      = .error "transaction recipient (to) is required" := by
  simp [createContractDeployment, signTransaction]

/-- Witness for Claim C4: a concrete deployment attempt (non-empty
bytecode and constructor data, fully populated parameters) fails with
the missing-recipient error. -/
theorem createContractDeployment_always_fails_witness :
    createContractDeployment (fun _ => .error "external")
      [96, 128] (some [1, 2])
      { newTransactionParams with toAddr := "0xabc", gas := 21000, gasPrice := some 5 }
      = .error "transaction recipient (to) is required" :=
  createContractDeployment_always_fails _ _ _ _

/-- Claim C5: whenever the decoded response envelope carries an error
object, `Client.Call` fails with exactly that `RPCError` (code, message
and data), and the `result` field is ignored: the outcome is the same
error for every value of the result field, and no result value is
returned. -/
theorem clientCall_surfaces_rpc_error (r : RPCResponse) (e : RPCError)
    (h : r.error = some e) :
    handleRPCResponse r = .error e ∧
    ∀ res, handleRPCResponse { r with result := res } = .error e := by
  constructor
  · unfold handleRPCResponse; rw [h]
  · intro res; unfold handleRPCResponse; simp only [h]

/-- Witness for Claim C5: a response with error code `-32000` and message
`"insufficient funds"` surfaces exactly that failure. -/
theorem clientCall_surfaces_rpc_error_witness :
    handleRPCResponse ⟨7, some "0xdead", some ⟨-32000, "insufficient funds", ""⟩⟩
      = .error ⟨-32000, "insufficient funds", ""⟩ :=
  (clientCall_surfaces_rpc_error
    ⟨7, some "0xdead", some ⟨-32000, "insufficient funds", ""⟩⟩
    ⟨-32000, "insufficient funds", ""⟩ rfl).1

/-- The envelope ids handed out from counter state `c` are
`c+1, c+2, ...` as long as the `uint64` counter does not wrap. -/
lemma idsFrom_get (n : ℕ) : ∀ (c i : ℕ), i < n → c + n < 2 ^ 64 →
    (idsFrom c n).get? i = some (c + i + 1) := by
  induction n with
  | zero => intro c i hi _; omega
  | succ n ih =>
    intro c i hi hc
    have hmod : (c + 1) % 2 ^ 64 = c + 1 := Nat.mod_eq_of_lt (by omega)
    have ht : idsFrom c (n + 1) = ((c + 1) % 2 ^ 64) :: idsFrom ((c + 1) % 2 ^ 64) n := rfl
    rw [ht, hmod]
    cases i with
    | zero => simp
    | succ i =>
      rw [List.get?_cons_succ, ih (c + 1) i (by omega) (by omega)]
      congr 1
      omega

/-- Claim C6: starting from a fresh client (`NewClient` zeroes the
counter), the `i`-th `Client.Call` uses envelope id `i+1`: ids are
strictly increasing and pairwise distinct across any sequence of calls
short of `2^64`, and each call advances the `uint64` counter by exactly
one, using the new value as the id. -/
theorem clientCall_ids_strictly_increasing (n i j : ℕ)
    (hij : i < j) (hj : j < n) (hn : n < 2 ^ 64) :
    (idsFrom newClientCounter n).get? i = some (i + 1) ∧
    (idsFrom newClientCounter n).get? j = some (j + 1) ∧
    i + 1 < j + 1 ∧
    ∀ c, callStep c = ((c + 1) % 2 ^ 64, (c + 1) % 2 ^ 64) := by
  refine ⟨?_, ?_, by omega, fun c => rfl⟩
  · simpa using idsFrom_get n 0 i (by omega) (by omega)
  · simpa using idsFrom_get n 0 j (by omega) (by omega)

/-- Witness for Claim C6: among three calls on a fresh client, the first
and third receive ids 1 and 3, and a call at counter 5 yields (6, 6). -/
theorem clientCall_ids_strictly_increasing_witness :
    (idsFrom newClientCounter 3).get? 0 = some 1 ∧
    (idsFrom newClientCounter 3).get? 2 = some 3 ∧
    callStep 5 = (6, 6) := by
  have h := clientCall_ids_strictly_increasing 3 0 2 (by decide) (by decide) (by decide)
  exact ⟨h.1, h.2.1, by simpa using h.2.2.2 5⟩

/-- Counterexample for Claim C7: the claim says unit lookup in `ToWei` and
`FromWei` is case-insensitive, for every casing of every supported unit
name.  The `EtherUnit`-typed variants of `utils.go` compare the unit
token exactly against the lowercase constants, so the casing `"WEI"` of
the supported unit `wei` is rejected with an unknown-unit error (while
the string-unit variant lowers the token first and accepts it). -/
theorem unit_lookup_not_case_insensitive_in_typed_variant :
    toWeiEU "1" "WEI" = .error "unknown unit: WEI" ∧
    fromWeiEU (some 1) "WEI" = .error "unknown unit: WEI" ∧
    toWeiStr "1" "WEI" = .ok 1 :=
  ⟨by decide, by decide, by decide⟩

/-- Claim C7 (amended): in the string-unit `ToWei`/`FromWei` the unit
token is lowered with `strings.ToLower` before lookup, so two tokens
with the same lowering behave identically (same value or both failing);
in the `EtherUnit`-typed variants of `utils.go` the token is matched
exactly against the lowercase constants.  In both variants a token
outside the registry yields an unknown-unit error rather than a default
to wei (for `ToWei` whenever the amount parses, for `FromWei` whenever
the wei amount is non-nil — a nil amount returns `"0"` before the unit
lookup). -/
theorem unit_lookup_case_insensitivity_amended :
    (∀ value s t, lowerStr s = lowerStr t →
      exceptValue? (toWeiStr value s) = exceptValue? (toWeiStr value t)) ∧
    (∀ w s t, lowerStr s = lowerStr t →
      exceptValue? (fromWeiStr w s) = exceptValue? (fromWeiStr w t)) ∧
    (∀ value s, floatSetString value.data ≠ none → unitExp (lowerStr s) = none →
      toWeiStr value s = .error ("unknown unit: " ++ s)) ∧
    (∀ (w : ℤ) s, unitExp (lowerStr s) = none →
      fromWeiStr (some w) s = .error ("unknown unit: " ++ s)) ∧
    (∀ value u, floatSetString value.data ≠ none → unitExp u = none →
      toWeiEU value u = .error ("unknown unit: " ++ u)) ∧
    (∀ (w : ℤ) u, unitExp u = none →
      fromWeiEU (some w) u = .error ("unknown unit: " ++ u)) := by
  refine ⟨?_, ?_, ?_, ?_, ?_, ?_⟩
  · intro value s t h
    unfold toWeiStr toWeiCore
    rw [h]
    cases floatSetString value.data <;> cases unitExp (lowerStr t) <;> rfl
  · intro w s t h
    unfold fromWeiStr fromWeiCore
    rw [h]
    cases w <;> cases unitExp (lowerStr t) <;> rfl
  · intro value s hv hu
    unfold toWeiStr toWeiCore
    cases hfs : floatSetString value.data with
    | none => exact absurd hfs hv
    | some v => rw [hu]
  · intro w s hu
    unfold fromWeiStr fromWeiCore
    rw [hu]
  · intro value u hv hu
    unfold toWeiEU toWeiCore
    cases hfs : floatSetString value.data with
    | none => exact absurd hfs hv
    | some v => rw [hu]
  · intro w u hu
    unfold fromWeiEU fromWeiCore
    rw [hu]

/-- Witness for Claim C7 (amended), at concrete inputs: `"GWEI"` and
`"gwei"` agree in the string variant, `"Ether"` and `"ETHER"` agree for
`FromWei`, and the unknown unit `"parsec"` fails every variant. -/
theorem unit_lookup_case_insensitivity_amended_witness :
    exceptValue? (toWeiStr "1" "GWEI") = exceptValue? (toWeiStr "1" "gwei") ∧
    exceptValue? (fromWeiStr (some 5) "Ether") = exceptValue? (fromWeiStr (some 5) "ETHER") ∧
    toWeiStr "1" "parsec" = .error "unknown unit: parsec" ∧
    fromWeiStr (some 5) "parsec" = .error "unknown unit: parsec" ∧
    toWeiEU "1" "parsec" = .error "unknown unit: parsec" ∧
    fromWeiEU (some 5) "parsec" = .error "unknown unit: parsec" :=
  ⟨unit_lookup_case_insensitivity_amended.1 "1" "GWEI" "gwei" (by decide),
   unit_lookup_case_insensitivity_amended.2.1 (some 5) "Ether" "ETHER" (by decide),
   unit_lookup_case_insensitivity_amended.2.2.1 "1" "parsec" (by decide) (by decide),
   unit_lookup_case_insensitivity_amended.2.2.2.1 5 "parsec" (by decide),
   unit_lookup_case_insensitivity_amended.2.2.2.2.1 "1" "parsec" (by decide) (by decide),
   unit_lookup_case_insensitivity_amended.2.2.2.2.2 5 "parsec" (by decide)⟩

/-- Claim C8: a transaction with an empty `to` or a zero gas limit (or,
for EIP-1559, a nil fee field) is rejected by
`SignTransaction`/`SignEIP1559Transaction` with a validation error
before any cryptographic operation: the result is an error and does not
depend on the external signer, for every pair of signers. -/
theorem sign_validates_before_signer :
    (∀ s₁ s₂ tx, tx.toAddr = "" ∨ tx.gas = 0 →
      (∃ m, signTransaction s₁ tx = .error m) ∧
      signTransaction s₁ tx = signTransaction s₂ tx) ∧
    (∀ s₁ s₂ tx, tx.toAddr = "" ∨ tx.gas = 0 ∨ tx.maxFeePerGas = none ∨
        tx.maxPriorityFeePerGas = none →
      (∃ m, signEIP1559Transaction s₁ tx = .error m) ∧
      signEIP1559Transaction s₁ tx = signEIP1559Transaction s₂ tx) := by
  constructor
  · intro s₁ s₂ tx h
    unfold signTransaction
    by_cases h1 : tx.toAddr = ""
    · simp [h1]
    · simp only [h1, if_false]
      by_cases h2 : tx.gasPrice = none
      · simp [h2]
      · have h3 : tx.gas = 0 := by tauto
        simp [h2, h3]
  · intro s₁ s₂ tx h
    unfold signEIP1559Transaction
    by_cases h1 : tx.toAddr = ""
    · simp [h1]
    · simp only [h1, if_false]
      by_cases h2 : tx.maxFeePerGas = none
      · simp [h2]
      · simp only [h2, if_false]
        by_cases h3 : tx.maxPriorityFeePerGas = none
        · simp [h3]
        · have h4 : tx.gas = 0 := by tauto
          simp [h3, h4]

/-- Witness for Claim C8: a legacy transaction with empty `to` and an
EIP-1559 transaction with nil `maxFeePerGas` are rejected identically
under two different signers. -/
theorem sign_validates_before_signer_witness :
    ((∃ m, signTransaction (fun _ => .ok ⟨"h", "r"⟩)
        { newTransactionParams with gas := 21000, gasPrice := some 5 } = .error m) ∧
      signTransaction (fun _ => .ok ⟨"h", "r"⟩)
        { newTransactionParams with gas := 21000, gasPrice := some 5 }
        = signTransaction (fun _ => .error "boom")
        { newTransactionParams with gas := 21000, gasPrice := some 5 }) ∧
    ((∃ m, signEIP1559Transaction (fun _ => .ok ⟨"h", "r"⟩)
        { newEIP1559TransactionParams with toAddr := "0xabc", gas := 21000 } = .error m) ∧
      signEIP1559Transaction (fun _ => .ok ⟨"h", "r"⟩)
        { newEIP1559TransactionParams with toAddr := "0xabc", gas := 21000 }
        = signEIP1559Transaction (fun _ => .error "boom")
        { newEIP1559TransactionParams with toAddr := "0xabc", gas := 21000 }) :=
  ⟨sign_validates_before_signer.1 _ _ _ (Or.inl rfl),
   sign_validates_before_signer.2 _ _ _ (Or.inr (Or.inr (Or.inl rfl)))⟩

/-- Claim C9: the transactions signed by `Wallet.SendTransaction` and
`Wallet.SendEIP1559Transaction` always carry chain id 1 (mainnet),
whatever the transfer options, gas estimate, RPC gas price, nonce and
fee caps — that is, whatever network the client actually points to. -/
theorem wallet_chainid_always_mainnet (opts : TransferOptions)
    (gasEstimate : ℕ) (rpcGasPrice : ℤ) (nonce : ℕ)
    (maxFeePerGas maxPriorityFeePerGas : Option ℤ) :
    (sendTransactionParams opts gasEstimate rpcGasPrice nonce).chainID = some 1 ∧
    (sendEIP1559TransactionParams opts gasEstimate nonce
        maxFeePerGas maxPriorityFeePerGas).chainID = some 1 :=
  ⟨rfl, rfl⟩

/-- Witness for Claim C9: a concrete transfer aimed at a non-mainnet
endpoint still carries chain id 1 in both transaction kinds. -/
theorem wallet_chainid_always_mainnet_witness :
    (sendTransactionParams ⟨"0xabc", some 5, 0, none, []⟩ 100 7 3).chainID = some 1 ∧
    (sendEIP1559TransactionParams ⟨"0xabc", some 5, 0, none, []⟩ 100 3
        (some 9) (some 2)).chainID = some 1 :=
  wallet_chainid_always_mainnet _ _ _ _ _ _

/-- Parsing distributes over list append: the accumulator threads
through. -/
lemma parseHexAux_append (l₁ l₂ : List Char) : ∀ acc,
    parseHexAux acc (l₁ ++ l₂)
      = (parseHexAux acc l₁).bind (fun a => parseHexAux a l₂) := by
  induction l₁ with
  | nil => intro acc; rfl
  | cons c cs ih =>
    intro acc
    cases h : hexDigitVal c with
    | none => simp [parseHexAux, h]
    | some d => simp [parseHexAux, h, ih]

/-- Decoding a single printed hex digit recovers its value. -/
lemma hexDigitVal_hexDigitChar : ∀ d < 16, hexDigitVal (hexDigitChar d) = some d := by
  decide

/-- The digits printed by `toHexAux` parse back: with accumulator `acc`
the parse yields `acc` shifted past the printed digits, plus `n`. -/
lemma parseHexAux_toHexAux : ∀ (fuel n acc : ℕ), n ≤ fuel →
    parseHexAux acc (toHexAux fuel n)
      = some (acc * 16 ^ (toHexAux fuel n).length + n) := by
  intro fuel
  induction fuel with
  | zero =>
    intro n acc hn
    have : n = 0 := by omega
    subst this
    simp [toHexAux, parseHexAux]
  | succ fuel ih =>
    intro n acc hn
    by_cases h0 : n = 0
    · subst h0; simp [toHexAux, parseHexAux]
    · have hstep : toHexAux (fuel + 1) n
          = toHexAux fuel (n / 16) ++ [hexDigitChar (n % 16)] := by
        simp [toHexAux, h0]
      have hdiv : n / 16 ≤ fuel := by
        have := Nat.div_lt_self (Nat.pos_of_ne_zero h0) (by omega : 1 < 16)
        omega
      rw [hstep, parseHexAux_append, ih (n / 16) acc hdiv]
      have hdig : hexDigitVal (hexDigitChar (n % 16)) = some (n % 16) :=
        hexDigitVal_hexDigitChar (n % 16) (Nat.mod_lt n (by omega))
      show parseHexAux _ [hexDigitChar (n % 16)] = _
      unfold parseHexAux
      rw [hdig]
      show some (16 * (acc * 16 ^ (toHexAux fuel (n / 16)).length + n / 16) + n % 16) = _
      congr 1
      have hlen : (toHexAux fuel (n / 16) ++ [hexDigitChar (n % 16)]).length
          = (toHexAux fuel (n / 16)).length + 1 := by simp
      rw [hlen, pow_succ]
      have := Nat.div_add_mod n 16
      ring_nf
      omega

/-- The hex digit string of a positive `n` is non-empty and parses to
`n`. -/
lemma parseHex_natToHexDigits (n : ℕ) : parseHex (natToHexDigits n) = some n := by
  by_cases h0 : n = 0
  · subst h0; decide
  · have hne : natToHexDigits n ≠ [] := by
      unfold natToHexDigits
      simp only [h0, if_false]
      cases n with
      | zero => exact absurd rfl h0
      | succ m =>
        simp [toHexAux, h0]
    obtain ⟨c, cs, hl⟩ : ∃ c cs, natToHexDigits n = c :: cs := by
      cases h' : natToHexDigits n with
      | nil => exact absurd h' hne
      | cons c cs => exact ⟨c, cs, rfl⟩
    have hval : parseHexAux 0 (natToHexDigits n) = some n := by
      unfold natToHexDigits
      simp only [h0, if_false]
      have := parseHexAux_toHexAux n n 0 le_rfl
      simpa using this
    have hform : parseHex (natToHexDigits n) = parseHexAux 0 (natToHexDigits n) := by
      rw [hl]
      rfl
    rw [hform]
    exact hval

/-- Claim C10: for every non-negative integer `N`,
`FromHex(ToHex(N))` succeeds with value `N`; in particular
`ToHex(12345) = "0x3039"` and `FromHex("0x3039")` parses to `12345`. -/
theorem hex_roundtrip :
    (∀ n : ℕ, fromHex (toHex n) = .ok (some n)) ∧
    toHex 12345 = "0x3039" ∧
    fromHex "0x3039" = .ok (some 12345) := by
  refine ⟨?_, by decide, by decide⟩
  intro n
  show Except.ok (parseHex (natToHexDigits n)) = _
  rw [parseHex_natToHexDigits]

end GoWeb3
